import Mathlib

/-!
Verification development for `publish_release.py` (boostorg release-tools).

The script downloads snapshot artifacts from an artifact repository,
renames them following the release-naming convention, regenerates sidecar
metadata with a freshly computed hash, extracts one archive variant under
a hosted directory name, and (unless a dry run) republishes the artifacts
and mirrors the extracted tree to cloud storage.

The embedding below models the script shallowly: pure string templating
for the naming resolver, association lists for JSON records, an abstract
digest function for the hashing primitive, a small tree model of the
local archive directory, and an effect trace for the orchestrated
external commands.
-/

namespace PublishRelease

/-- `jfrogURL` constant from the script. -/
def jfrogURL : String := "https://boostorg.jfrog.io/artifactory/"

/-- `sourceRepo = "main/master/"` from the script body. -/
def sourceRepo : String := "main/master/"

/-- `dottedVersion = boostVersion.replace("_", ".")`. -/
def dottedVersion (v : String) : String := v.replace "_" "."

/-- `actualName` before the rc suffix is applied:
`"boost_%s" % boostVersion`, or `"boost_%s_b%d" % (boostVersion, beta)`
when beta is set. -/
def actualNameBase (v : String) (beta : Option Int) : String :=
  match beta with
  | none => "boost_" ++ v
  | some b => "boost_" ++ v ++ "_b" ++ toString b

/-- `actualName`, including the `_rc%d` suffix appended when rc is set. -/
def actualName (v : String) (beta rc : Option Int) : String :=
  match rc with
  | none => actualNameBase v beta
  | some r => actualNameBase v beta ++ "_rc" ++ toString r

/-- `hostedArchiveName`: `"boost_%s"`, or `"boost_%s_beta%d"` when beta is
set.  The script never applies the rc suffix here (the assignment is
commented out), so the rc argument is ignored. -/
def hostedArchiveName (v : String) (beta : Option Int) (_rc : Option Int) : String :=
  match beta with
  | none => "boost_" ++ v
  | some b => "boost_" ++ v ++ "_beta" ++ toString b

/-- `unzippedArchiveName`: always `"boost_%s"`; neither beta nor rc is
applied. -/
def unzippedArchiveName (v : String) (_beta _rc : Option Int) : String :=
  "boost_" ++ v

/-- `destRepo`: `"main/release/%s/source/"`, or
`"main/beta/%s.beta%d/source/"` when beta is set; rc is ignored. -/
def destRepo (v : String) (beta : Option Int) (_rc : Option Int) : String :=
  match beta with
  | none => "main/release/" ++ dottedVersion v ++ "/source/"
  | some b => "main/beta/" ++ dottedVersion v ++ ".beta" ++ toString b ++ "/source/"

/-- `snapshotName = "boost_%s-snapshot" % boostVersion`. -/
def snapshotName (v : String) : String := "boost_" ++ v ++ "-snapshot"

/-- The four fixed artifact suffixes from the script. -/
def suffixes : List String := [".7z", ".zip", ".tar.bz2", ".tar.gz"]

/-! ### fileHash

`fileHash` reads the file in 4096-byte blocks and feeds each block to an
incrementally updated SHA-256 state, returning the hex digest.  The
hashing primitive (`hashlib.sha256`) is external; it is modelled by its
documented contract: the state is the byte string absorbed so far,
`update` appends, and `hexdigest` applies an abstract digest function to
the absorbed bytes. -/

/-- The sequence of blocks produced by `iter(lambda: f.read(4096), b"")`
on a file with the given contents: successive 4096-byte prefixes until
the remainder is empty. -/
def readBlocks (bs : List UInt8) : List (List UInt8) :=
  if bs = [] then [] else bs.take 4096 :: readBlocks (bs.drop 4096)
termination_by bs.length
decreasing_by
  simp only [List.length_drop]
  have : bs.length ≠ 0 := fun h => by simp_all [List.length_eq_zero]
  omega

/-- Model of a `hashlib.sha256()` object: the bytes absorbed so far. -/
structure SHA256State where
  absorbed : List UInt8

/-- `sha256_hash.update(byte_block)` appends the block to the absorbed
stream. -/
def SHA256State.update (st : SHA256State) (block : List UInt8) : SHA256State :=
  ⟨st.absorbed ++ block⟩

/-- `sha256_hash.hexdigest()`: apply the (abstract) hex digest function to
the absorbed bytes. -/
def SHA256State.hexdigest (digest : List UInt8 → String) (st : SHA256State) : String :=
  digest st.absorbed

/-- `fileHash`: absorb the file contents block by block, then take the hex
digest. -/
def fileHash (digest : List UInt8 → String) (contents : List UInt8) : String :=
  ((readBlocks contents).foldl SHA256State.update ⟨[]⟩).hexdigest digest

/-- Reference one-shot implementation: digest of the whole byte string at
once. -/
def oneShotHash (digest : List UInt8 → String) (contents : List UInt8) : String :=
  digest contents

/-! ### genJSON

JSON records are modelled as association lists from keys to string
values (the metadata records of this pipeline are flat string-valued
objects: `commit`, `file`, `created`, `sha256`).  Python's `snap[key]`
raises `KeyError` when the key is missing, modelled with `Except`. -/

/-- `snap[k]` lookup: first binding of `k`, if any. -/
def lookupKey (snap : List (String × String)) (k : String) : Option String :=
  match snap with
  | [] => none
  | (k2, v) :: rest => if k2 = k then some v else lookupKey rest k

/-- Result of `genJSON`: the new record (in insertion order) and the lines
printed on a checksum mismatch. -/
structure GenResult where
  newJSON : List (String × String)
  printed : List String
deriving DecidableEq

/-- `genJSON(snapshotJSON, fileName, incomingSHA)`: build the new record
from the snapshot record's `commit` (and `created` when present), the
renamed `fileName`, and the freshly computed `incomingSHA`; print a
three-line diagnostic when the recorded hash differs from the computed
one.  Missing `commit` or `sha256` keys raise `KeyError`. -/
def genJSON (snap : List (String × String)) (fileName incomingSHA : String) :
    Except String GenResult :=
  match lookupKey snap "commit" with
  | none => .error "KeyError: commit"
  | some commit =>
    let base := [("commit", commit), ("file", fileName)]
    let base := match lookupKey snap "created" with
      | some created => base ++ [("created", created)]
      | none => base
    let newJSON := base ++ [("sha256", incomingSHA)]
    match lookupKey snap "sha256" with
    | none => .error "KeyError: sha256"
    | some recorded =>
      .ok ⟨newJSON,
        if recorded ≠ incomingSHA then
          ["ERROR: Checksum failure for \x27" ++ fileName ++ "\x27",
           "Recorded:\t" ++ recorded,
           "Calculated: " ++ incomingSHA]
        else []⟩

/-- `True` exactly when `genJSON` returned a record rather than raising. -/
def genJSONOk (e : Except String GenResult) : Bool :=
  match e with
  | .ok _ => true
  | .error _ => false

/-! ### Effects

The script orchestrates external commands and local I/O.  Each observable
action is one constructor; a run of (part of) the script is a list of
effects in program order. -/

/-- One observable action of the script. -/
inductive Effect where
  /-- A line written to standard output. -/
  | print (line : String)
  /-- `downloadAFile(url, destFile)`: streamed HTTP download to a local file. -/
  | httpDownload (url : String) (destFile : String)
  /-- `json.dump(...)` into the named local file. -/
  | writeLocalFile (name : String)
  /-- `jfrog rt cp --flat=true <source> <dest>`. -/
  | shellJfrogCopy (source : String) (dest : String)
  /-- `jfrog rt upload <file> <destRepo>`. -/
  | shellJfrogUpload (file : String) (dest : String)
  /-- `mkdir -p`-style directory creation (`Path.mkdir` / `os.makedirs`). -/
  | mkdirP (path : String)
  /-- `shutil.rmtree(path)`. -/
  | rmtree (path : String)
  /-- `shutil.copyfile(src, dst)`. -/
  | copyfile (src : String) (dst : String)
  /-- `os.chdir(path)`. -/
  | chdir (path : String)
  /-- `tar -xvf <archive>` in the current directory. -/
  | shellTar (archive : String)
  /-- `shutil.move(src, dst)`. -/
  | move (src : String) (dst : String)
  /-- Writing the fixed rclone configuration file. -/
  | writeRcloneConf (path : String)
  /-- `rclone sync --transfers 16 --checksum <src> <dst>` under `AWS_PROFILE=<profile>`. -/
  | shellRcloneSync (profile : String) (src : String) (dst : String)
deriving DecidableEq

/-- The remote-mutating effects: repository publish operations (jfrog copy
and metadata upload) and cloud-mirror sync invocations. -/
def isPublish (e : Effect) : Bool :=
  match e with
  | .shellJfrogCopy _ _ => true
  | .shellJfrogUpload _ _ => true
  | .shellRcloneSync _ _ _ => true
  | _ => false

/-- `downloadJFROGFiles(sourceRepo, sourceFileName, destFileName, suffix)`:
print the two progress lines and download the artifact (to the renamed
destination file) and its sidecar JSON (to the source-based name). -/
def downloadJFROGFiles (repo sourceFileName destFileName suffix : String) :
    List Effect :=
  let sourceFile := sourceFileName ++ suffix
  let destFile := destFileName ++ suffix
  let jsonFile := sourceFile ++ ".json"
  [.print ("Downloading: " ++ sourceFile ++ " to " ++ destFile),
   .print ("Downloading: " ++ jsonFile ++ " to " ++ jsonFile),
   .httpDownload (jfrogURL ++ repo ++ sourceFile) destFile,
   .httpDownload (jfrogURL ++ repo ++ jsonFile) jsonFile]

/-- The `(url, localFile)` pairs of the download effects in a trace. -/
def downloadsOf (es : List Effect) : List (String × String) :=
  es.filterMap fun e =>
    match e with
    | .httpDownload u d => some (u, d)
    | _ => none

/-- `copyJFROGFile(sourceRepo, sourceFileName, destRepo, destFileName,
suffix)`: print, then server-side copy with rename. -/
def copyJFROGFile (srcRepo sourceFileName dstRepo destFileName suffix : String) :
    List Effect :=
  [.print ("Copying: " ++ sourceFileName ++ suffix ++ " to " ++ destFileName ++ suffix),
   .shellJfrogCopy (srcRepo ++ sourceFileName ++ suffix) (dstRepo ++ destFileName ++ suffix)]

/-- `uploadJFROGFile(sourceFileName, destRepo)`: print, then upload. -/
def uploadJFROGFile (sourceFileName dstRepo : String) : List Effect :=
  [.print ("Uploading: " ++ sourceFileName),
   .shellJfrogUpload sourceFileName dstRepo]

/-! ### Command-line argument check

`optparse` extracts the flags; the script then requires exactly one
positional argument, printing a message plus the usage text and exiting
with status 1 otherwise. -/

/-- Outcome of the positional-argument check at script start. -/
structure CliOutcome where
  printedTooMany : Bool
  printedUsage : Bool
  exitCode : Option Nat
  version : Option String
deriving DecidableEq

/-- `if len(args) != 1: print(...); parser.print_help(); exit(1)` followed
by `boostVersion = args[0]`. -/
def cliCheck (args : List String) : CliOutcome :=
  match args with
  | [a] => ⟨false, false, none, some a⟩
  | _ => ⟨true, true, some 1, none⟩

/-! ### Local archive directory model

Only the archive root `~/archives` matters to the materializer: its
entries are a flat list of named nodes, where a node is either a regular
file or a directory with its own entries.  `~/archives/tmp` and
`~/archives/<hostedArchiveName>` are entries of this root. -/

/-- A node of the local archive directory tree. -/
inductive FNode where
  | file : FNode
  | dir : List (String × FNode) → FNode

/-- The entry named `k`, if any (first binding wins). -/
def lookupEntry (es : List (String × FNode)) (k : String) : Option FNode :=
  match es with
  | [] => none
  | (k2, v) :: rest => if k2 = k then some v else lookupEntry rest k

/-- Remove every entry named `k` (models `shutil.rmtree` on a directory
entry). -/
def removeEntry (es : List (String × FNode)) (k : String) : List (String × FNode) :=
  match es with
  | [] => []
  | (k2, v) :: rest =>
    if k2 = k then removeEntry rest k else (k2, v) :: removeEntry rest k

/-- Create or replace the entry named `k`. -/
def setEntry (es : List (String × FNode)) (k : String) (v : FNode) :
    List (String × FNode) :=
  removeEntry es k ++ [(k, v)]

/-- `os.path.isdir` on an entry of the archive root. -/
def isDirEntry (es : List (String × FNode)) (k : String) : Bool :=
  match lookupEntry es k with
  | some (.dir _) => true
  | _ => false

/-- The archive materialization block (script lines 187-203), operating on
the entries of `~/archives`.  `extracted` is the tree that `tar -xvf`
produces under the archive's top-level directory `unzipped`.  Returns the
effects in order and the final entries of the archive root, or the
effects completed so far when the block dies on an uncaught exception:
`Path.mkdir` hits a non-directory entry at the scratch path
(`FileExistsError`), or — since `os.path.isdir` is false for a regular
file, so no `rmtree` happens — `shutil.move` hits a non-directory entry
at the hosted name (`os.rename` fails, and the `copytree` fallback's
`os.makedirs` raises `FileExistsError`). -/
def materializeFS (home cwd : String) (root : List (String × FNode))
    (extracted : FNode) (archiveName hosted unzipped : String) :
    Except (List Effect) (List Effect × List (String × FNode)) :=
  let archiveDir := home ++ "/archives"
  let archiveDirTmp := home ++ "/archives/tmp"
  let t0 : List Effect := [.mkdirP archiveDir]
  let t1 := t0 ++ if isDirEntry root "tmp" then [.rmtree archiveDirTmp] else []
  let root1 := if isDirEntry root "tmp" then removeEntry root "tmp" else root
  match lookupEntry root1 "tmp" with
  | some _ => .error t1
  | none =>
    let tmpE1 : List (String × FNode) := [(archiveName, .file)]
    let tmpE2 := setEntry tmpE1 unzipped extracted
    let t2 := t1 ++
      [.mkdirP archiveDirTmp,
       .copyfile archiveName (archiveDirTmp ++ "/" ++ archiveName),
       .chdir archiveDirTmp,
       .shellTar archiveName,
       .chdir archiveDir]
    let root2 := setEntry root1 "tmp" (.dir tmpE2)
    let t3 := t2 ++ if isDirEntry root2 hosted then [.rmtree hosted] else []
    let root3 := if isDirEntry root2 hosted then removeEntry root2 hosted else root2
    match lookupEntry root3 hosted with
    | some _ => .error t3
    | none =>
      let root4 := setEntry (setEntry root3 "tmp" (.dir (removeEntry tmpE2 unzipped)))
        hosted extracted
      .ok (t3 ++ [.move (archiveDirTmp ++ "/" ++ unzipped) hosted, .chdir cwd], root4)

/-! ### The whole pipeline as an effect trace -/

/-- Parsed option flags (`-b`, `-r`, `-p`, `-n`). -/
structure Options where
  beta : Option Int
  rc : Option Int
  progress : Bool
  dryrun : Bool

/-- The parts of the outside world the script consults: home directory,
starting working directory, entries of `~/archives`, the tree extracted
from the `.tar.gz` archive, the parsed sidecar records by local file
name, the computed hash of each local file, and the two cloud-mirror
preconditions. -/
structure Env where
  home : String
  cwd : String
  rootEntries : List (String × FNode)
  extracted : FNode
  snapRecord : String → List (String × String)
  fileHashOf : String → String
  rcloneInstalled : Bool
  awsCredsExist : Bool

/-- Result of a run: the effects in order, the final entries of
`~/archives`, and whether the script died on an uncaught exception. -/
structure PipeResult where
  trace : List Effect
  root : List (String × FNode)
  crashed : Bool

/-- The fixed profile-to-bucket map `aws_profiles` (insertion order). -/
def awsProfiles : List (String × String) :=
  [("production", "boost.org.v2"),
   ("stage", "stage.boost.org.v2"),
   ("revsys", "boost.revsys.dev"),
   ("cppal-dev", "boost.org-cppal-dev-v2")]

/-- Progress prints at script start (lines 162-165). -/
def startPrints (v : String) (opts : Options) : List Effect :=
  if opts.progress then
    [.print ("Creating release files named \x27" ++ actualName v opts.beta opts.rc ++ "\x27")]
      ++ (if opts.dryrun then [.print "## Dry run; not uploading files to JFrog"] else [])
  else []

/-- Download stage (lines 170-174): optional progress print, then
`downloadJFROGFiles` for each suffix. -/
def downloadStage (v : String) (opts : Options) : List Effect :=
  (if opts.progress then [.print ("Downloading from: " ++ sourceRepo)] else []) ++
    (suffixes.map fun s =>
      downloadJFROGFiles sourceRepo (snapshotName v) (actualName v opts.beta opts.rc) s).flatten

/-- JSON regeneration stage (lines 176-185) over a list of suffixes:
for each suffix, optionally print progress, call `genJSON` on the
snapshot sidecar record with the renamed file name and its computed
hash, and write the result; an uncaught `KeyError` stops the script
(second component `true`). -/
def jsonStage (aName : String) (progress : Bool) (env : Env) (snapName : String) :
    List String → List Effect × Bool
  | [] => ([], false)
  | s :: rest =>
    let sourceFileName := aName ++ s
    let jsonFileName := sourceFileName ++ ".json"
    let jsonSnapshotName := snapName ++ s ++ ".json"
    let pre := if progress then [Effect.print ("Writing JSON to: " ++ jsonFileName)] else []
    match genJSON (env.snapRecord jsonSnapshotName) sourceFileName
        (env.fileHashOf sourceFileName) with
    | .error _ => (pre, true)
    | .ok r =>
      let (restEff, c) := jsonStage aName progress env snapName rest
      (pre ++ r.printed.map Effect.print ++ [Effect.writeLocalFile jsonFileName] ++ restEff, c)

/-- Publish stage (lines 205-211): optional progress print; unless a dry
run, copy each artifact server-side and upload each new metadata file. -/
def publishStage (v : String) (opts : Options) : List Effect :=
  let aName := actualName v opts.beta opts.rc
  let dRepo := destRepo v opts.beta opts.rc
  (if opts.progress then [.print ("Uploading to: " ++ dRepo)] else []) ++
    (if opts.dryrun then [] else
      (suffixes.map fun s =>
        copyJFROGFile sourceRepo (snapshotName v) dRepo aName s
          ++ uploadJFROGFile (aName ++ s ++ ".json") dRepo).flatten)

/-- Cloud-mirror stage (lines 222-257): the rclone config is always
written; then either a remediation message (missing rclone or missing
credentials), or — unless a dry run — one sync per credential profile. -/
def mirrorStage (opts : Options) (env : Env) (hosted : String) : List Effect :=
  let archivePathLocal := env.home ++ "/archives/" ++ hosted ++ "/"
  [.mkdirP (env.home ++ "/.config/rclone"),
   .writeRcloneConf (env.home ++ "/.config/rclone/rclone.conf")] ++
    (if !env.rcloneInstalled then
      [.print "rclone is not installed. Instructions:",
       .print "wget https://downloads.rclone.org/v1.64.0/rclone-v1.64.0-linux-amd64.deb; dpkg -i rclone-v1.64.0-linux-amd64.deb"]
    else if !env.awsCredsExist then
      [.print "AWS credentials are missing. Please add the file ~/.aws/credentials ."]
    else if opts.dryrun then []
    else awsProfiles.map fun pb =>
      .shellRcloneSync pb.1 archivePathLocal ("remote1:" ++ pb.2 ++ "/archives/" ++ hosted ++ "/"))

/-- The script body after argument parsing, as an effect trace plus the
final archive-root state.  A crash (uncaught exception) truncates the
trace at the point of failure. -/
def runPipeline (v : String) (opts : Options) (env : Env) : PipeResult :=
  let aName := actualName v opts.beta opts.rc
  let hosted := hostedArchiveName v opts.beta opts.rc
  let unzipped := unzippedArchiveName v opts.beta opts.rc
  let t12 := startPrints v opts ++ downloadStage v opts
  let (t3, crashed3) := jsonStage aName opts.progress env (snapshotName v) suffixes
  if crashed3 then ⟨t12 ++ t3, env.rootEntries, true⟩
  else
    match materializeFS env.home env.cwd env.rootEntries env.extracted
        (aName ++ ".tar.gz") hosted unzipped with
    | .error t4 => ⟨t12 ++ t3 ++ t4, env.rootEntries, true⟩
    | .ok (t4, root4) =>
      ⟨t12 ++ t3 ++ t4 ++ publishStage v opts ++ mirrorStage opts env hosted, root4, false⟩

/-! ### Concrete states used as witnesses -/

/-- An archive root with a stale scratch directory and a stale previous
extraction under the hosted name. -/
def rootW : List (String × FNode) :=
  [("tmp", .dir [("stale", .file)]), ("boost_1_76_0", .dir [("old", .file)])]

/-- A dry run with no beta/rc flags. -/
def optsW : Options := ⟨none, none, false, true⟩

/-- A concrete environment: well-formed snapshot records whose recorded
hash matches the computed one, stale local state, no rclone, no AWS
credentials. -/
def envW : Env where
  home := "/home/user"
  cwd := "/work"
  rootEntries := rootW
  extracted := .dir [("README", .file)]
  snapRecord := fun _ => [("commit", "c0"), ("sha256", "aaa")]
  fileHashOf := fun _ => "aaa"
  rcloneInstalled := false
  awsCredsExist := false

/-! ### Helper lemmas -/

/-- The blocks produced by 4096-byte reads concatenate back to the file
contents. -/
theorem flatten_readBlocks (bs : List UInt8) : (readBlocks bs).flatten = bs := by
  rw [readBlocks]
  by_cases h : bs = []
  · simp [h]
  · simp only [if_neg h, List.flatten_cons]
    rw [flatten_readBlocks (bs.drop 4096), List.take_append_drop]
termination_by bs.length
decreasing_by
  simp only [List.length_drop]
  have hne : bs.length ≠ 0 := fun h0 => h (List.length_eq_zero.mp h0)
  omega

/-- Folding `update` over a block list absorbs the concatenation of the
blocks. -/
theorem absorbed_foldl_update (blocks : List (List UInt8)) (st : SHA256State) :
    (blocks.foldl SHA256State.update st).absorbed = st.absorbed ++ blocks.flatten := by
  induction blocks generalizing st with
  | nil => simp
  | cons b rest ih => simp [SHA256State.update, ih]

/-- Full characterization of `genJSON` when both mandatory keys are
present. -/
theorem genJSON_eq_of_keys (snap : List (String × String)) (f h c s : String)
    (hc : lookupKey snap "commit" = some c) (hs : lookupKey snap "sha256" = some s) :
    genJSON snap f h =
      .ok ⟨[("commit", c), ("file", f)] ++
          (match lookupKey snap "created" with
            | some cr => [("created", cr)]
            | none => []) ++ [("sha256", h)],
        if s = h then [] else
          ["ERROR: Checksum failure for \x27" ++ f ++ "\x27",
           "Recorded:\t" ++ s,
           "Calculated: " ++ h]⟩ := by
  unfold genJSON
  rw [hc, hs]
  rcases hcr : lookupKey snap "created" with _ | cr <;>
    by_cases he : s = h <;> simp [he]

/-- Lookup distributes over append, preferring the left list. -/
theorem lookupEntry_append (xs ys : List (String × FNode)) (k : String) :
    lookupEntry (xs ++ ys) k =
      match lookupEntry xs k with
      | some v => some v
      | none => lookupEntry ys k := by
  induction xs with
  | nil => rfl
  | cons p t ih =>
    rcases p with ⟨k2, v⟩
    by_cases h : k2 = k <;> simp [lookupEntry, h, ih]

/-- After `removeEntry es k` the key `k` is gone. -/
theorem lookupEntry_removeEntry_self (es : List (String × FNode)) (k : String) :
    lookupEntry (removeEntry es k) k = none := by
  induction es with
  | nil => rfl
  | cons p t ih =>
    rcases p with ⟨k2, v⟩
    by_cases h : k2 = k <;> simp [removeEntry, lookupEntry, h, ih]

/-- `removeEntry` leaves other keys alone. -/
theorem lookupEntry_removeEntry_ne (es : List (String × FNode)) (k k2 : String)
    (h : k2 ≠ k) : lookupEntry (removeEntry es k) k2 = lookupEntry es k2 := by
  induction es with
  | nil => rfl
  | cons p t ih =>
    rcases p with ⟨k3, v⟩
    by_cases h3 : k3 = k
    · subst h3
      simp [removeEntry, lookupEntry, Ne.symm h, ih]
    · by_cases h4 : k3 = k2 <;> simp [removeEntry, lookupEntry, h3, h4, h, ih]

/-- `setEntry` stores the given value under the given key. -/
theorem lookupEntry_setEntry_self (es : List (String × FNode)) (k : String)
    (v : FNode) : lookupEntry (setEntry es k v) k = some v := by
  unfold setEntry
  rw [lookupEntry_append, lookupEntry_removeEntry_self]
  simp [lookupEntry]

/-- `setEntry` leaves other keys alone. -/
theorem lookupEntry_setEntry_ne (es : List (String × FNode)) (k k2 : String)
    (v : FNode) (h : k2 ≠ k) :
    lookupEntry (setEntry es k v) k2 = lookupEntry es k2 := by
  unfold setEntry
  rw [lookupEntry_append, lookupEntry_removeEntry_ne es k k2 h]
  rcases h2 : lookupEntry es k2 with _ | w <;> simp [lookupEntry, Ne.symm h]

/-- Characterization of the materializer on a well-formed prior state:
no regular file sits at the scratch path or at the hosted name (either
state makes the real script die on an uncaught exception), and the
hosted name is not the scratch name.  The run succeeds, ends with the
move into the hosted name, extracts exactly the given archive, resets a
pre-existing scratch directory, deletes a pre-existing hosted directory
before the move, emits no publish effect, and leaves exactly the
extracted tree under the hosted name. -/
theorem materializeFS_ok (home cwd : String) (root : List (String × FNode))
    (X : FNode) (aName hosted unzipped : String)
    (htmp : lookupEntry root "tmp" = none ∨ isDirEntry root "tmp" = true)
    (hhost : lookupEntry root hosted = none ∨ isDirEntry root hosted = true)
    (hne : hosted ≠ "tmp") :
    ∃ t1 root4,
      materializeFS home cwd root X aName hosted unzipped =
        .ok (t1 ++ [Effect.move (home ++ "/archives/tmp" ++ "/" ++ unzipped) hosted,
          Effect.chdir cwd], root4) ∧
      lookupEntry root4 hosted = some X ∧
      Effect.shellTar aName ∈ t1 ∧
      (∀ f, Effect.shellTar f ∈ t1 → f = aName) ∧
      (isDirEntry root "tmp" = true → Effect.rmtree (home ++ "/archives/tmp") ∈ t1) ∧
      (isDirEntry root hosted = true → Effect.rmtree hosted ∈ t1) ∧
      t1.filter isPublish = [] := by
  have hdir2 : ∀ root1 : List (String × FNode),
      lookupEntry root1 hosted = lookupEntry root hosted →
      isDirEntry (setEntry root1 "tmp"
        (.dir (setEntry [(aName, .file)] unzipped X))) hosted = isDirEntry root hosted := by
    intro root1 h1
    unfold isDirEntry
    rw [lookupEntry_setEntry_ne _ _ _ _ hne, h1]
  have hlook2 : ∀ root1 : List (String × FNode),
      lookupEntry root1 hosted = lookupEntry root hosted →
      lookupEntry (setEntry root1 "tmp"
        (.dir (setEntry [(aName, .file)] unzipped X))) hosted = lookupEntry root hosted := by
    intro root1 h1
    rw [lookupEntry_setEntry_ne _ _ _ _ hne, h1]
  rcases h0 : isDirEntry root "tmp" with _ | _
  · -- the scratch path is not a directory, hence (by `htmp`) absent
    rcases htmp with h1 | h1
    · unfold materializeFS
      rw [h0]
      simp only [Bool.false_eq_true, if_false, List.append_nil]
      simp only [h1]
      rw [hdir2 root rfl]
      by_cases hh : isDirEntry root hosted = true
      · rw [if_pos hh, if_pos hh, lookupEntry_removeEntry_self]
        refine ⟨_, _, rfl, lookupEntry_setEntry_self _ _ _, ?_, ?_, ?_, ?_, ?_⟩
        · simp [List.mem_append]
        · intro f hf
          simp [List.mem_append] at hf
          exact hf
        · intro hc
          simp at hc
        · intro _
          simp [List.mem_append]
        · rfl
      · have hln : lookupEntry root hosted = none := by
          rcases hhost with h2 | h2
          · exact h2
          · exact absurd h2 hh
        rw [if_neg hh, if_neg hh, hlook2 root rfl, hln]
        refine ⟨_, _, rfl, lookupEntry_setEntry_self _ _ _, ?_, ?_, ?_, ?_, ?_⟩
        · simp [List.mem_append]
        · intro f hf
          simp [List.mem_append] at hf
          exact hf
        · intro hc
          simp at hc
        · intro hc
          exact absurd hc hh
        · rfl
    · rw [h0] at h1
      exact absurd h1 (by simp)
  · -- the scratch path is a directory and is removed first
    unfold materializeFS
    rw [h0]
    simp only [if_true, lookupEntry_removeEntry_self]
    have h1 : lookupEntry (removeEntry root "tmp") hosted = lookupEntry root hosted :=
      lookupEntry_removeEntry_ne root "tmp" hosted hne
    rw [hdir2 _ h1]
    by_cases hh : isDirEntry root hosted = true
    · rw [if_pos hh, if_pos hh, lookupEntry_removeEntry_self]
      refine ⟨_, _, rfl, lookupEntry_setEntry_self _ _ _, ?_, ?_, ?_, ?_, ?_⟩
      · simp [List.mem_append]
      · intro f hf
        simp [List.mem_append] at hf
        exact hf
      · intro _
        simp [List.mem_append]
      · intro _
        simp [List.mem_append]
      · rfl
    · have hln : lookupEntry root hosted = none := by
        rcases hhost with h2 | h2
        · exact h2
        · exact absurd h2 hh
      rw [if_neg hh, if_neg hh, hlook2 _ h1, hln]
      refine ⟨_, _, rfl, lookupEntry_setEntry_self _ _ _, ?_, ?_, ?_, ?_, ?_⟩
      · simp [List.mem_append]
      · intro f hf
        simp [List.mem_append] at hf
        exact hf
      · intro _
        simp [List.mem_append]
      · intro hc
        exact absurd hc hh
      · rfl

/-- Printed lines are never publish effects. -/
theorem filter_isPublish_mapPrint (ls : List String) :
    (ls.map Effect.print).filter isPublish = [] := by
  induction ls with
  | nil => rfl
  | cons a t ih => simp [isPublish, ih]

/-- The start-of-script prints contain no publish effect. -/
theorem filter_isPublish_startPrints (v : String) (opts : Options) :
    (startPrints v opts).filter isPublish = [] := by
  unfold startPrints
  split
  · split <;> rfl
  · rfl

/-- The download stage contains no publish effect. -/
theorem filter_isPublish_downloadStage (v : String) (opts : Options) :
    (downloadStage v opts).filter isPublish = [] := by
  unfold downloadStage
  split <;> rfl

/-- The JSON regeneration stage contains no publish effect. -/
theorem filter_isPublish_jsonStage (aName : String) (progress : Bool) (env : Env)
    (snapName : String) (l : List String) :
    (jsonStage aName progress env snapName l).1.filter isPublish = [] := by
  induction l with
  | nil => rfl
  | cons s rest ih =>
    rcases hg : genJSON (env.snapRecord (snapName ++ s ++ ".json")) (aName ++ s)
        (env.fileHashOf (aName ++ s)) with e | r
    · simp only [jsonStage, hg]
      split <;> rfl
    · rcases hrest : jsonStage aName progress env snapName rest with ⟨restEff, c⟩
      rw [hrest] at ih
      simp only [jsonStage, hg, hrest]
      simp only [List.filter_append, ih, filter_isPublish_mapPrint, List.append_nil]
      split <;> simp [isPublish]

/-- Under a dry run the publish stage is only its optional progress
print. -/
theorem filter_isPublish_publishStage_dryrun (v : String) (opts : Options)
    (hd : opts.dryrun = true) :
    (publishStage v opts).filter isPublish = [] := by
  unfold publishStage
  rw [hd]
  simp only [if_true, List.append_nil]
  split <;> rfl

/-- Under a dry run the cloud-mirror stage issues no sync. -/
theorem filter_isPublish_mirrorStage_dryrun (opts : Options) (env : Env)
    (hosted : String) (hd : opts.dryrun = true) :
    (mirrorStage opts env hosted).filter isPublish = [] := by
  unfold mirrorStage
  rw [hd]
  cases hr : env.rcloneInstalled <;> cases ha : env.awsCredsExist <;>
    simp [isPublish]

/-- When every suffix's snapshot record lets `genJSON` succeed, the JSON
stage does not crash and writes each renamed metadata file. -/
theorem jsonStage_ok (aName : String) (progress : Bool) (env : Env)
    (snapName : String) (l : List String)
    (hok : ∀ s ∈ l,
      genJSONOk (genJSON (env.snapRecord (snapName ++ s ++ ".json")) (aName ++ s)
        (env.fileHashOf (aName ++ s))) = true) :
    (jsonStage aName progress env snapName l).2 = false ∧
    ∀ s ∈ l, Effect.writeLocalFile (aName ++ s ++ ".json") ∈
      (jsonStage aName progress env snapName l).1 := by
  induction l with
  | nil => simp [jsonStage]
  | cons s rest ih =>
    have hs := hok s (by simp)
    cases hg : genJSON (env.snapRecord (snapName ++ s ++ ".json")) (aName ++ s)
        (env.fileHashOf (aName ++ s)) with
    | error e => rw [hg] at hs; simp [genJSONOk] at hs
    | ok r =>
      obtain ⟨ihc, ihm⟩ := ih fun s2 h2 => hok s2 (by simp [h2])
      constructor
      · simp only [jsonStage, hg, ihc]
      · intro s2 h2
        simp only [jsonStage, hg]
        rcases List.mem_cons.mp h2 with h3 | h3
        · subst h3
          simp [List.mem_append]
        · simp [List.mem_append, ihm s2 h3]

/-- The two downloads of each suffix appear in the download stage. -/
theorem downloads_mem_downloadStage (v : String) (opts : Options) (s : String)
    (hs : s ∈ suffixes) :
    Effect.httpDownload (jfrogURL ++ sourceRepo ++ (snapshotName v ++ s))
        (actualName v opts.beta opts.rc ++ s) ∈ downloadStage v opts ∧
    Effect.httpDownload (jfrogURL ++ sourceRepo ++ (snapshotName v ++ s ++ ".json"))
        (snapshotName v ++ s ++ ".json") ∈ downloadStage v opts := by
  unfold downloadStage
  constructor <;>
  · refine List.mem_append_right _ (List.mem_flatten.mpr
      ⟨downloadJFROGFiles sourceRepo (snapshotName v)
        (actualName v opts.beta opts.rc) s, List.mem_map_of_mem _ hs, ?_⟩)
    simp [downloadJFROGFiles]

/-- The hosted archive name always starts with `boost_`, so it is never
the scratch directory name. -/
theorem hostedArchiveName_ne_tmp (v : String) (beta rc : Option Int) :
    hostedArchiveName v beta rc ≠ "tmp" := by
  intro h
  have hl := congrArg String.length h
  rcases beta with _ | b
  · simp only [hostedArchiveName, String.length_append] at hl
    rw [show "boost_".length = 6 from rfl, show "tmp".length = 3 from rfl] at hl
    omega
  · simp only [hostedArchiveName, String.length_append] at hl
    rw [show "boost_".length = 6 from rfl, show "tmp".length = 3 from rfl,
      show "_beta".length = 5 from rfl] at hl
    omega

/-! ### Claim theorems -/

/-- C2: with beta and rc unset, `actualName`, `hostedArchiveName` and
`unzippedArchiveName` all equal `boost_V` and `destRepo` equals
`main/release/<dotted V>/source/`; with beta set and rc unset,
`actualName = boost_V_bB`, `hostedArchiveName = boost_V_betaB`,
`unzippedArchiveName = boost_V`, and `destRepo` equals
`main/beta/<dotted V>.betaB/source/`, hence contains `.betaB`. -/
theorem naming_resolver_release_and_beta (v : String) (b : Int) :
    actualName v none none = "boost_" ++ v ∧
    hostedArchiveName v none none = "boost_" ++ v ∧
    unzippedArchiveName v none none = "boost_" ++ v ∧
    destRepo v none none = "main/release/" ++ v.replace "_" "." ++ "/source/" ∧
    actualName v (some b) none = "boost_" ++ v ++ "_b" ++ toString b ∧
    hostedArchiveName v (some b) none = "boost_" ++ v ++ "_beta" ++ toString b ∧
    unzippedArchiveName v (some b) none = "boost_" ++ v ∧
    destRepo v (some b) none =
      "main/beta/" ++ v.replace "_" "." ++ ".beta" ++ toString b ++ "/source/" ∧
    (∃ pre post, destRepo v (some b) none = pre ++ ".beta" ++ toString b ++ post) :=
  ⟨rfl, rfl, rfl, rfl, rfl, rfl, rfl, rfl,
   ⟨"main/beta/" ++ v.replace "_" ".", "/source/", rfl⟩⟩

/-- C3: setting rc appends `_rcR` to `actualName` (with beta also set,
`actualName = boost_V_bB_rcR`) and leaves `hostedArchiveName`,
`unzippedArchiveName` and `destRepo` exactly as with rc unset. -/
theorem rc_only_affects_actualName (v : String) (beta : Option Int) (r : Int) :
    actualName v beta (some r) = actualName v beta none ++ "_rc" ++ toString r ∧
    (∀ b : Int, actualName v (some b) (some r) =
      "boost_" ++ v ++ "_b" ++ toString b ++ "_rc" ++ toString r) ∧
    hostedArchiveName v beta (some r) = hostedArchiveName v beta none ∧
    unzippedArchiveName v beta (some r) = unzippedArchiveName v beta none ∧
    destRepo v beta (some r) = destRepo v beta none :=
  ⟨rfl, fun _ => rfl, rfl, rfl, rfl⟩

/-- C7: with zero or two-plus positional arguments the script prints the
message and the usage text and exits with status 1; with exactly one it
proceeds, taking that argument as the version. -/
theorem cli_positional_argument_contract (args : List String) :
    cliCheck args =
      if args.length = 1 then ⟨false, false, none, args.head?⟩
      else ⟨true, true, some 1, none⟩ := by
  rcases args with _ | ⟨a, _ | ⟨b, t⟩⟩ <;> simp [cliCheck]

/-- C10: `genJSON` returns a record exactly when the snapshot record has
both the `commit` and `sha256` keys; a missing `commit` or `sha256` is an
uncaught `KeyError`, while `created` is not required. -/
theorem genJSON_requires_commit_and_sha256 (snap : List (String × String))
    (f h : String) :
    genJSONOk (genJSON snap f h) =
      ((lookupKey snap "commit").isSome && (lookupKey snap "sha256").isSome) := by
  rcases hc : lookupKey snap "commit" with _ | c
  · simp [genJSON, genJSONOk, hc]
  · rcases hs : lookupKey snap "sha256" with _ | s
    · simp [genJSON, genJSONOk, hc, hs]
    · simp [genJSON_eq_of_keys snap f h c s hc hs, genJSONOk, hc, hs]

/-- C9: the block-wise hash over 4096-byte reads equals the one-shot
digest of the whole contents, for any digest function. -/
theorem fileHash_eq_oneShotHash (digest : List UInt8 → String)
    (contents : List UInt8) :
    fileHash digest contents = oneShotHash digest contents := by
  unfold fileHash oneShotHash SHA256State.hexdigest
  rw [absorbed_foldl_update]
  simpa using congrArg digest (flatten_readBlocks contents)

/-- C8 counterexample: at a concrete input the sidecar's local file name
is derived from the source snapshot name, not from the destination name,
refuting the claim that both local names are destination-based. -/
theorem downloadJFROGFiles_sidecar_counterexample :
    (downloadsOf
        (downloadJFROGFiles "main/master/" "boost_1_76_0-snapshot" "boost_1_76_0"
          ".tar.gz")).map Prod.snd =
      ["boost_1_76_0.tar.gz", "boost_1_76_0-snapshot.tar.gz.json"] ∧
    "boost_1_76_0-snapshot.tar.gz.json" ≠ "boost_1_76_0" ++ ".tar.gz" ++ ".json" := by
  constructor
  · rfl
  · decide

/-- C8 (amended): for each suffix the fetcher downloads two remote
objects — the artifact to the local file `<destName><suffix>`, and the
sidecar JSON to the local file `<sourceName><suffix>.json` (named after
the source snapshot, not the destination). -/
theorem downloadJFROGFiles_two_objects (repo srcName dstName suffix : String) :
    downloadsOf (downloadJFROGFiles repo srcName dstName suffix) =
      [(jfrogURL ++ repo ++ (srcName ++ suffix), dstName ++ suffix),
       (jfrogURL ++ repo ++ (srcName ++ suffix ++ ".json"),
        srcName ++ suffix ++ ".json")] := rfl

/-- C4: the record returned by `genJSON` has `commit` from the snapshot,
`file` set to the renamed file, `sha256` set to the computed hash,
carries `created` exactly when the snapshot has it, and nothing else;
the snapshot record itself is left untouched (the new record is built
from scratch). -/
theorem genJSON_builds_new_record (snap : List (String × String)) (f h c s : String)
    (hc : lookupKey snap "commit" = some c)
    (hs : lookupKey snap "sha256" = some s) :
    ∃ out, genJSON snap f h =
      .ok ⟨[("commit", c), ("file", f)] ++
          (match lookupKey snap "created" with
            | some cr => [("created", cr)]
            | none => []) ++ [("sha256", h)], out⟩ :=
  ⟨_, genJSON_eq_of_keys snap f h c s hc hs⟩

/-- Witness for C4 at a concrete snapshot record carrying `created`. -/
theorem genJSON_builds_new_record_witness :
    ∃ out, genJSON
        [("commit", "c0"), ("created", "2021-04-14"), ("sha256", "aaa")]
        "boost_1_76_0.tar.gz" "aaa" =
      .ok ⟨[("commit", "c0"), ("file", "boost_1_76_0.tar.gz"),
            ("created", "2021-04-14"), ("sha256", "aaa")], out⟩ :=
  genJSON_builds_new_record _ _ _ "c0" "aaa" rfl rfl

/-- C1: with both mandatory keys present, `genJSON` returns (never
aborts) a record whose `sha256` is the freshly computed hash, printing
the three-line diagnostic showing the recorded and the computed value
exactly when they differ, and printing nothing when they are equal. -/
theorem genJSON_mismatch_diagnostic (snap : List (String × String)) (f h c s : String)
    (hc : lookupKey snap "commit" = some c)
    (hs : lookupKey snap "sha256" = some s) :
    ∃ nj, genJSON snap f h =
        .ok ⟨nj,
          if s = h then [] else
            ["ERROR: Checksum failure for \x27" ++ f ++ "\x27",
             "Recorded:\t" ++ s,
             "Calculated: " ++ h]⟩ ∧
      lookupKey nj "sha256" = some h := by
  refine ⟨_, genJSON_eq_of_keys snap f h c s hc hs, ?_⟩
  rcases lookupKey snap "created" with _ | cr <;> rfl

/-- Witness for C1: a concrete record with a stale hash produces the
diagnostic and carries the computed hash. -/
theorem genJSON_mismatch_diagnostic_witness :
    ∃ nj, genJSON [("commit", "c0"), ("sha256", "aaa")] "boost_1_76_0.tar.gz" "bbb" =
        .ok ⟨nj,
          ["ERROR: Checksum failure for \x27boost_1_76_0.tar.gz\x27",
           "Recorded:\taaa",
           "Calculated: bbb"]⟩ ∧
      lookupKey nj "sha256" = some "bbb" :=
  genJSON_mismatch_diagnostic _ "boost_1_76_0.tar.gz" "bbb" "c0" "aaa" rfl rfl

/-- C6: the materializer operates only on the `.tar.gz` variant (the only
extracted archive is `actualName ++ ".tar.gz"`); a pre-existing scratch
directory is deleted first; a directory already at the archive root
under the hosted name is deleted before the extracted tree is moved
there (the move is the final operation); afterwards the hosted path
holds exactly the newly extracted tree. -/
theorem materializer_replace_semantics (home cwd : String)
    (root : List (String × FNode)) (X : FNode) (v : String) (beta rc : Option Int)
    (htmp : lookupEntry root "tmp" = none ∨ isDirEntry root "tmp" = true)
    (hhost : lookupEntry root (hostedArchiveName v beta rc) = none ∨
      isDirEntry root (hostedArchiveName v beta rc) = true) :
    ∃ t1 root4,
      materializeFS home cwd root X (actualName v beta rc ++ ".tar.gz")
          (hostedArchiveName v beta rc) (unzippedArchiveName v beta rc) =
        .ok (t1 ++ [Effect.move
            (home ++ "/archives/tmp" ++ "/" ++ unzippedArchiveName v beta rc)
            (hostedArchiveName v beta rc), Effect.chdir cwd], root4) ∧
      lookupEntry root4 (hostedArchiveName v beta rc) = some X ∧
      Effect.shellTar (actualName v beta rc ++ ".tar.gz") ∈ t1 ∧
      (∀ f, Effect.shellTar f ∈ t1 → f = actualName v beta rc ++ ".tar.gz") ∧
      (isDirEntry root "tmp" = true →
        Effect.rmtree (home ++ "/archives/tmp") ∈ t1) ∧
      (isDirEntry root (hostedArchiveName v beta rc) = true →
        Effect.rmtree (hostedArchiveName v beta rc) ∈ t1) := by
  obtain ⟨t1, root4, h1, h2, h3, h4, h5, h6, _⟩ :=
    materializeFS_ok home cwd root X (actualName v beta rc ++ ".tar.gz")
      (hostedArchiveName v beta rc) (unzippedArchiveName v beta rc) htmp hhost
      (hostedArchiveName_ne_tmp v beta rc)
  exact ⟨t1, root4, h1, h2, h3, h4, h5, h6⟩

/-- Witness for C6: a prior state with both a stale scratch directory and
a stale previous extraction under the hosted name. -/
theorem materializer_replace_semantics_witness :
    ∃ t1 root4,
      materializeFS "/home/user" "/work" rootW (FNode.dir [("README", .file)])
          (actualName "1_76_0" none none ++ ".tar.gz")
          (hostedArchiveName "1_76_0" none none)
          (unzippedArchiveName "1_76_0" none none) =
        .ok (t1 ++ [Effect.move
            ("/home/user" ++ "/archives/tmp" ++ "/" ++ unzippedArchiveName "1_76_0" none none)
            (hostedArchiveName "1_76_0" none none), Effect.chdir "/work"], root4) ∧
      lookupEntry root4 (hostedArchiveName "1_76_0" none none) =
        some (FNode.dir [("README", .file)]) ∧
      Effect.shellTar (actualName "1_76_0" none none ++ ".tar.gz") ∈ t1 ∧
      (∀ f, Effect.shellTar f ∈ t1 → f = actualName "1_76_0" none none ++ ".tar.gz") ∧
      (isDirEntry rootW "tmp" = true →
        Effect.rmtree ("/home/user" ++ "/archives/tmp") ∈ t1) ∧
      (isDirEntry rootW (hostedArchiveName "1_76_0" none none) = true →
        Effect.rmtree (hostedArchiveName "1_76_0" none none) ∈ t1) :=
  materializer_replace_semantics "/home/user" "/work" rootW
    (FNode.dir [("README", .file)]) "1_76_0" none none (Or.inr rfl) (Or.inr rfl)

/-- C5: under the dry-run flag — given well-formed snapshot records and
no regular file blocking the scratch path or the hosted name (either
would be an uncaught crash of the real script) — the run finishes
without a crash, its trace contains no repository-publish and no
cloud-sync effect, while the eight downloads, the four metadata writes,
and the local extraction all occur, and the extracted tree is on disk
under the hosted archive name afterwards. -/
theorem dryrun_frame (v : String) (opts : Options) (env : Env)
    (hd : opts.dryrun = true)
    (hsnap : ∀ s ∈ suffixes,
      genJSONOk (genJSON (env.snapRecord (snapshotName v ++ s ++ ".json"))
        (actualName v opts.beta opts.rc ++ s)
        (env.fileHashOf (actualName v opts.beta opts.rc ++ s))) = true)
    (htmp : lookupEntry env.rootEntries "tmp" = none ∨
      isDirEntry env.rootEntries "tmp" = true)
    (hhost : lookupEntry env.rootEntries (hostedArchiveName v opts.beta opts.rc) = none ∨
      isDirEntry env.rootEntries (hostedArchiveName v opts.beta opts.rc) = true) :
    (runPipeline v opts env).trace.filter isPublish = [] ∧
    (runPipeline v opts env).crashed = false ∧
    (∀ s ∈ suffixes,
      Effect.httpDownload (jfrogURL ++ sourceRepo ++ (snapshotName v ++ s))
        (actualName v opts.beta opts.rc ++ s) ∈ (runPipeline v opts env).trace ∧
      Effect.httpDownload (jfrogURL ++ sourceRepo ++ (snapshotName v ++ s ++ ".json"))
        (snapshotName v ++ s ++ ".json") ∈ (runPipeline v opts env).trace ∧
      Effect.writeLocalFile (actualName v opts.beta opts.rc ++ s ++ ".json") ∈
        (runPipeline v opts env).trace) ∧
    Effect.shellTar (actualName v opts.beta opts.rc ++ ".tar.gz") ∈
      (runPipeline v opts env).trace ∧
    lookupEntry (runPipeline v opts env).root (hostedArchiveName v opts.beta opts.rc) =
      some env.extracted := by
  obtain ⟨hcrash, hwrites⟩ := jsonStage_ok (actualName v opts.beta opts.rc)
    opts.progress env (snapshotName v) suffixes hsnap
  obtain ⟨t1, root4, hmat, hlook, htar, _, _, _, hf1⟩ :=
    materializeFS_ok env.home env.cwd env.rootEntries env.extracted
      (actualName v opts.beta opts.rc ++ ".tar.gz")
      (hostedArchiveName v opts.beta opts.rc)
      (unzippedArchiveName v opts.beta opts.rc) htmp hhost
      (hostedArchiveName_ne_tmp v opts.beta opts.rc)
  have hft3 := filter_isPublish_jsonStage (actualName v opts.beta opts.rc)
    opts.progress env (snapshotName v) suffixes
  rcases hj : jsonStage (actualName v opts.beta opts.rc) opts.progress env
    (snapshotName v) suffixes with ⟨t3, c3⟩
  rw [hj] at hcrash hwrites hft3
  simp only at hcrash hwrites hft3
  subst hcrash
  have hR : runPipeline v opts env =
      ⟨(startPrints v opts ++ downloadStage v opts) ++ t3 ++
        (t1 ++ [Effect.move
          (env.home ++ "/archives/tmp" ++ "/" ++ unzippedArchiveName v opts.beta opts.rc)
          (hostedArchiveName v opts.beta opts.rc), Effect.chdir env.cwd]) ++
        publishStage v opts ++
        mirrorStage opts env (hostedArchiveName v opts.beta opts.rc),
       root4, false⟩ := by
    simp only [runPipeline, hj, hmat, Bool.false_eq_true, if_false]
  rw [hR]
  refine ⟨?_, rfl, ?_, ?_, hlook⟩
  · simp [List.filter_append, filter_isPublish_startPrints,
      filter_isPublish_downloadStage, hft3, hf1,
      filter_isPublish_publishStage_dryrun v opts hd,
      filter_isPublish_mirrorStage_dryrun opts env _ hd, isPublish]
  · intro s hs
    obtain ⟨hd1, hd2⟩ := downloads_mem_downloadStage v opts s hs
    have hw := hwrites s hs
    exact ⟨List.mem_append_left _ (List.mem_append_left _ (List.mem_append_left _
        (List.mem_append_left _ (List.mem_append_right _ hd1)))),
      List.mem_append_left _ (List.mem_append_left _ (List.mem_append_left _
        (List.mem_append_left _ (List.mem_append_right _ hd2)))),
      List.mem_append_left _ (List.mem_append_left _ (List.mem_append_left _
        (List.mem_append_right _ hw)))⟩
  · exact List.mem_append_left _ (List.mem_append_left _ (List.mem_append_right _
      (List.mem_append_left _ htar)))

/-- Witness for C5: a concrete dry run over well-formed snapshot records
and a stale local archive state. -/
theorem dryrun_frame_witness :
    (runPipeline "1_76_0" optsW envW).trace.filter isPublish = [] ∧
    (runPipeline "1_76_0" optsW envW).crashed = false ∧
    (∀ s ∈ suffixes,
      Effect.httpDownload (jfrogURL ++ sourceRepo ++ (snapshotName "1_76_0" ++ s))
        (actualName "1_76_0" optsW.beta optsW.rc ++ s) ∈
          (runPipeline "1_76_0" optsW envW).trace ∧
      Effect.httpDownload
        (jfrogURL ++ sourceRepo ++ (snapshotName "1_76_0" ++ s ++ ".json"))
        (snapshotName "1_76_0" ++ s ++ ".json") ∈
          (runPipeline "1_76_0" optsW envW).trace ∧
      Effect.writeLocalFile (actualName "1_76_0" optsW.beta optsW.rc ++ s ++ ".json") ∈
        (runPipeline "1_76_0" optsW envW).trace) ∧
    Effect.shellTar (actualName "1_76_0" optsW.beta optsW.rc ++ ".tar.gz") ∈
      (runPipeline "1_76_0" optsW envW).trace ∧
    lookupEntry (runPipeline "1_76_0" optsW envW).root
      (hostedArchiveName "1_76_0" optsW.beta optsW.rc) = some envW.extracted :=
  dryrun_frame "1_76_0" optsW envW rfl (by decide) (Or.inr rfl) (Or.inr rfl)

end PublishRelease
